import Mathlib

/-!
Shallow embedding of the two command-line drivers of this repository:
the single-file driver (rawcod.py) and the batch driver (process_service.py).
Python dicts are modelled as ordered association lists with unique keys,
Python exceptions as an explicit error type, `os.getenv` results as
`Option String`, and file contents as explicit parameters.
-/

set_option maxHeartbeats 1000000

deriving instance DecidableEq for Except

/-- Left-biased choice on options: keeps the first operand when it is `some`. -/
def optOr {α : Type} : Option α → Option α → Option α
  | some a, _ => some a
  | none, b => b

/-- Python dict assignment `d[k] = v` on an ordered association list with
unique keys: if the key is present its value is updated in place, otherwise
the pair is appended at the end (insertion order, as in CPython dicts). -/
def dinsert {α : Type} (k : String) (v : α) : List (String × α) → List (String × α)
  | [] => [(k, v)]
  | (k', v') :: rest => if k' = k then (k, v) :: rest else (k', v') :: dinsert k v rest

/-- Python dict lookup `d[k]` / `k in d` on an association list. -/
def dlookup {α : Type} (k : String) : List (String × α) → Option α
  | [] => none
  | (k', v) :: rest => if k' = k then some v else dlookup k rest

/-- Python `d.get(k, default)` on an association list. -/
def dlookupD {α : Type} (k : String) (m : List (String × α)) (d : α) : α :=
  (dlookup k m).getD d

/-- Models Python `str.strip()`: remove leading and trailing whitespace. -/
def pyStrip (s : String) : String :=
  String.mk (((s.data.dropWhile Char.isWhitespace).reverse.dropWhile Char.isWhitespace).reverse)

/-- Models Python `str.lower()` character by character (ASCII letters). -/
def lowerStr (s : String) : String :=
  String.mk (s.data.map Char.toLower)

/-- Models Python `s.split(sep)[-1]`: the maximal suffix of the character list
that does not contain the separator (the whole list when the separator is
absent). -/
def afterLastSep (sep : Char) : List Char → List Char
  | [] => []
  | c :: cs =>
    if cs.contains sep then afterLastSep sep cs
    else if c = sep then cs else c :: cs

/-- Models Python `str.rfind(c)`: the index of the last occurrence of the
character, `none` when the character is absent. -/
def rfindChar (ch : Char) : List Char → Option Nat
  | [] => none
  | c :: cs =>
    match rfindChar ch cs with
    | some i => some (i + 1)
    | none => if c = ch then some 0 else none

/-- Models `pathlib.PurePath.suffix` applied to a file name (the final path
component): `i = name.rfind('.')`, and the substring from `i` when
`0 < i < len(name) - 1`, else the empty string. -/
def pySuffix (name : String) : String :=
  match rfindChar '.' name.data with
  | some i => if 0 < i ∧ i + 1 < name.data.length then String.mk (name.data.drop i) else ""
  | none => ""

namespace Rawcod

/-- The `mime_types` table of `get_mime_type` in rawcod.py, lines 108-118,
in source order. -/
def mime_types : List (String × String) :=
  [("jpg", "image/jpeg"),
   ("jpeg", "image/jpeg"),
   ("png", "image/png"),
   ("bmp", "image/bmp"),
   ("gif", "image/gif"),
   ("tiff", "image/tiff"),
   ("tif", "image/tiff"),
   ("webp", "image/webp"),
   ("pdf", "application/pdf")]

/-- rawcod.py lines 103-119: `ext = file_path.lower().split('.')[-1]`,
then `mime_types.get(ext, 'application/octet-stream')`. -/
def get_mime_type (file_path : String) : String :=
  dlookupD (String.mk (afterLastSep '.' (lowerStr file_path).data)) mime_types
    "application/octet-stream"

end Rawcod

namespace ProcessService

/-- The `mime_map` table of `get_mime_type` in process_service.py,
lines 106-116, in source order. -/
def mime_map : List (String × String) :=
  [("pdf", "application/pdf"),
   ("jpg", "image/jpeg"),
   ("jpeg", "image/jpeg"),
   ("png", "image/png"),
   ("tif", "image/tiff"),
   ("tiff", "image/tiff"),
   ("bmp", "image/bmp"),
   ("gif", "image/gif"),
   ("webp", "image/webp")]

/-- process_service.py lines 104-117: `ext = path.suffix.lower().lstrip(".")`,
then `mime_map.get(ext, "application/octet-stream")`. The argument is the
file's name (its final path component), on which `pathlib` computes the
suffix; `lstrip(".")` drops leading dot characters. -/
def get_mime_type (name : String) : String :=
  dlookupD (String.mk ((lowerStr (pySuffix name)).data.dropWhile (· == '.'))) mime_map
    "application/octet-stream"

end ProcessService

/-- Python exception values relevant to the two drivers, carrying their
message. `json.JSONDecodeError` is a subclass of `ValueError`; neither is a
subclass of `RuntimeError`. -/
inductive PyExc : Type where
  | runtimeError : String → PyExc
  | valueError : String → PyExc
  | jsonDecodeError : String → PyExc
deriving DecidableEq

/-- Whether an `except RuntimeError` clause catches the exception: only
`RuntimeError` instances are caught (a plain `ValueError` or a
`JSONDecodeError` is not a `RuntimeError`). -/
def isRuntimeError : PyExc → Bool
  | .runtimeError _ => true
  | _ => false

/-- The possible outcomes of `json.load` on the credential file followed by
`data.get("project_id")`: the file fails to parse, or it parses and the
`project_id` field is the given optional string (`none` when absent). -/
inductive CredsParse : Type where
  | malformed : CredsParse
  | parsed : Option String → CredsParse
deriving DecidableEq

/-- rawcod.py lines 27-59 (identical in process_service.py lines 28-60):
`validate_credentials`. The inputs model `os.getenv` on the credential
environment variable and `os.path.exists` on the path it holds. Raises
`RuntimeError` when the variable is unset or empty, or the file is absent. -/
def validate_credentials (credsEnv : Option String) (credsFileExists : Bool) :
    Except PyExc String :=
  match credsEnv with
  | none => .error (.runtimeError "GOOGLE_APPLICATION_CREDENTIALS not set.")
  | some p =>
    if p = "" then .error (.runtimeError "GOOGLE_APPLICATION_CREDENTIALS not set.")
    else if credsFileExists then .ok p
    else .error (.runtimeError "Google OCR credentials not found.")

/-- rawcod.py lines 62-75 (identical in process_service.py lines 63-76):
`load_project_id`. A `json.JSONDecodeError` from `json.load` is caught and
re-raised as `RuntimeError`; a missing or falsy `project_id` field raises a
plain `ValueError`, which the surrounding `except json.JSONDecodeError`
clause does not catch. -/
def load_project_id (creds : CredsParse) : Except PyExc String :=
  match creds with
  | .malformed => .error (.runtimeError "Invalid JSON in credentials file")
  | .parsed pid =>
    match pid with
    | none => .error (.valueError "project_id not found in credentials file")
    | some p =>
      if p = "" then .error (.valueError "project_id not found in credentials file")
      else .ok p

/-- rawcod.py lines 78-100 (identical in process_service.py lines 79-101):
`load_processor_id`. `envId` models `os.getenv("DOCAI_PROCESSOR_ID")`;
`fileContent` models the content of `docai_processor_id.txt` (`none` when the
file does not exist). A truthy (non-empty) environment value is returned
stripped; otherwise the stripped file content is returned when non-empty;
otherwise a `RuntimeError` is raised. -/
def load_processor_id (envId : Option String) (fileContent : Option String) :
    Except PyExc String :=
  match envId with
  | some e =>
    if e ≠ "" then .ok (pyStrip e)
    else
      match fileContent with
      | some c => if pyStrip c ≠ "" then .ok (pyStrip c) else .error (.runtimeError "Processor ID not found.")
      | none => .error (.runtimeError "Processor ID not found.")
  | none =>
    match fileContent with
    | some c => if pyStrip c ≠ "" then .ok (pyStrip c) else .error (.runtimeError "Processor ID not found.")
    | none => .error (.runtimeError "Processor ID not found.")

/-- The resolved configuration of step 1 of both drivers. -/
structure Config : Type where
  creds_path : String
  project_id : String
  processor_id : String
  location : String
deriving DecidableEq

/-- Outcome of a run of `main` as observed by the operating system: a return
value (`sys.exit` code), or an exception propagating out of `main` uncaught. -/
inductive Outcome : Type where
  | exited : Nat → Outcome
  | uncaughtExc : PyExc → Outcome
deriving DecidableEq

/-- rawcod.py lines 134-142 (identical in process_service.py lines 140-148):
the configuration step of `main`, a `try` block running
`validate_credentials`, `load_project_id`, `load_processor_id` and the
location default, with a single `except RuntimeError` clause that logs and
returns 1. Any other exception propagates out of `main`. -/
def mainConfigStep (credsEnv : Option String) (credsFileExists : Bool)
    (creds : CredsParse) (procEnv : Option String) (procFile : Option String)
    (locEnv : Option String) : Except Outcome Config :=
  let r : Except PyExc Config := do
    let cp ← validate_credentials credsEnv credsFileExists
    let pid ← load_project_id creds
    let prid ← load_processor_id procEnv procFile
    pure ⟨cp, pid, prid, locEnv.getD "us"⟩
  match r with
  | .ok c => .ok c
  | .error e => if isRuntimeError e then .error (.exited 1) else .error (.uncaughtExc e)

/-- A named entity of the remote document: `type_`, `mention_text` and the
nested child entities `properties`, as read by rawcod.py lines 218-228. -/
inductive RawEntity : Type where
  | mk : String → String → List RawEntity → RawEntity

/-- The `entity.type_` field. -/
def RawEntity.type_ : RawEntity → String
  | .mk t _ _ => t

/-- The `entity.mention_text` field. -/
def RawEntity.mention_text : RawEntity → String
  | .mk _ m _ => m

/-- The `entity.properties` field: the list of direct child entities. -/
def RawEntity.properties : RawEntity → List RawEntity
  | .mk _ _ p => p

/-- The `entity_details` dict built at rawcod.py lines 221-228: the entity's
`mention_text` and a dict of flattened one-level children. -/
structure EntityDetails : Type where
  value : String
  properties : List (String × String)
deriving DecidableEq

/-- rawcod.py lines 221-228: `entity_details = {"value": entity.mention_text,
"properties": {}}`, then for each child in `entity.properties`,
`child_type = child.type_.split('/')[-1]` and
`entity_details["properties"][child_type] = child.mention_text`. -/
def entity_details (e : RawEntity) : EntityDetails :=
  { value := e.mention_text
    properties := e.properties.foldl
      (fun m c => dinsert (String.mk (afterLastSep '/' c.type_.data)) c.mention_text m) [] }

/-- The `header_fields` list of rawcod.py lines 211-215. -/
def header_fields : List String :=
  ["invoice_id", "invoice_date", "supplier_name", "supplier_address",
   "supplier_tax_id", "supplier_iban", "receiver_name", "receiver_address",
   "receiver_tax_id", "invoice_type"]

/-- The `footer_fields` list of rawcod.py line 216. -/
def footer_fields : List String :=
  ["net_amount", "total_tax_amount", "vat", "total_amount"]

/-- The mutable state of the classification loop: the `header`, `line_items`
and `footer` components of `structured_invoice` (rawcod.py lines 205-209). -/
structure Sections : Type where
  header : List (String × EntityDetails)
  line_items : List EntityDetails
  footer : List (String × EntityDetails)
deriving DecidableEq

/-- One iteration of the classification loop, rawcod.py lines 218-237:
the `if/elif/elif/else` dispatch on `entity.type_`. -/
def classifyStep (s : Sections) (e : RawEntity) : Sections :=
  let d := entity_details e
  if e.type_ ∈ header_fields then { s with header := dinsert e.type_ d s.header }
  else if e.type_ = "line_item" then { s with line_items := s.line_items ++ [d] }
  else if e.type_ ∈ footer_fields then { s with footer := dinsert e.type_ d s.footer }
  else { s with header := dinsert e.type_ d s.header }

/-- The `structured_invoice` record after rawcod.py line 241: the three
sections plus the `transaction_id` added to the dict. -/
structure StructuredInvoice : Type where
  header : List (String × EntityDetails)
  line_items : List EntityDetails
  footer : List (String × EntityDetails)
  transaction_id : String
deriving DecidableEq

/-- rawcod.py lines 205-241 (the Response Normalizer): fold the
classification loop over the document's entity list starting from the empty
three sections, then attach the transaction identifier. The identifier
(`str(uuid.uuid4())` at line 240) is an input here: it is drawn from the
random-number generator and does not depend on the document. -/
def build_structured_invoice (entities : List RawEntity) (transaction_id : String) :
    StructuredInvoice :=
  let s := entities.foldl classifyStep ⟨[], [], []⟩
  ⟨s.header, s.line_items, s.footer, transaction_id⟩

/-- A JSON value of the serialized `structured_invoice` object. -/
inductive SField : Type where
  | fmap : List (String × EntityDetails) → SField
  | flist : List EntityDetails → SField
  | fstr : String → SField
deriving DecidableEq

/-- The key/value pairs of the `structured_invoice` dict as serialized by
`json.dump` (rawcod.py lines 205-209 create `header`, `line_items`, `footer`
in that insertion order; line 241 appends `transaction_id`). -/
def toPairs (r : StructuredInvoice) : List (String × SField) :=
  [("header", .fmap r.header), ("line_items", .flist r.line_items),
   ("footer", .fmap r.footer), ("transaction_id", .fstr r.transaction_id)]

/-- Derived routing predicate of the dispatch at rawcod.py lines 230-237:
the entity lands in the `header` map (first branch or the final `else`). -/
def headerRouted (e : RawEntity) : Bool :=
  decide (e.type_ ∈ header_fields ∨ (e.type_ ≠ "line_item" ∧ e.type_ ∉ footer_fields))

/-- Derived routing predicate: the entity is appended to `line_items`. -/
def lineItemRouted (e : RawEntity) : Bool :=
  decide (e.type_ ∉ header_fields ∧ e.type_ = "line_item")

/-- Derived routing predicate: the entity lands in the `footer` map. -/
def footerRouted (e : RawEntity) : Bool :=
  decide (e.type_ ∉ header_fields ∧ e.type_ ≠ "line_item" ∧ e.type_ ∈ footer_fields)

/-- process_service.py lines 163-171: the batch loop. For each file of the
enumeration in order, `process_file` (the remote call plus the output write,
modelled by the `outcome` oracle) either succeeds or raises; on the first
raise the loop logs and returns 1 immediately. The result is the list of
files actually submitted together with the loop's exit code (0 when the whole
enumeration is processed). -/
def batch_loop {φ ε β : Type} (outcome : φ → Except ε β) : List φ → List φ × Nat
  | [] => ([], 0)
  | f :: fs =>
    match outcome f with
    | .ok _ => let r := batch_loop outcome fs; (f :: r.1, r.2)
    | .error _ => ([f], 1)

theorem optOr_none_right {α : Type} (x : Option α) : optOr x none = x := by
  cases x <;> rfl

theorem optOr_assoc {α : Type} (a b c : Option α) :
    optOr (optOr a b) c = optOr a (optOr b c) := by
  cases a <;> cases b <;> rfl

theorem optOr_map {α β : Type} (f : α → β) (a b : Option α) :
    (optOr a b).map f = optOr (a.map f) (b.map f) := by
  cases a <;> rfl

theorem dlookup_dinsert_self {α : Type} (k : String) (v : α) (m : List (String × α)) :
    dlookup k (dinsert k v m) = some v := by
  induction m with
  | nil => simp [dinsert, dlookup]
  | cons p rest ih =>
    obtain ⟨k', v'⟩ := p
    by_cases h : k' = k
    · simp [dinsert, dlookup, h]
    · simp [dinsert, dlookup, h, ih]

theorem dlookup_dinsert_ne {α : Type} {k k' : String} (h : k' ≠ k) (v : α)
    (m : List (String × α)) : dlookup k (dinsert k' v m) = dlookup k m := by
  induction m with
  | nil => simp [dinsert, dlookup, h]
  | cons p rest ih =>
    obtain ⟨k2, v2⟩ := p
    by_cases h2 : k2 = k'
    · subst h2
      simp [dinsert, dlookup, h, ih]
    · by_cases h3 : k2 = k
      · subst h3
        simp [dinsert, dlookup, h2, ih]
      · simp [dinsert, dlookup, h2, h3, ih]

theorem getLast?_cons_opt {α : Type} (c : α) (l : List α) :
    (c :: l).getLast? = optOr l.getLast? (some c) := by
  induction l generalizing c with
  | nil => rfl
  | cons b t ih =>
    rw [List.getLast?_cons_cons, ih b]
    cases t.getLast? <;> simp [optOr]

theorem dlookup_foldl_cond {α β : Type} (p : α → Bool) (key : α → String) (val : α → β)
    (l : List α) (m : List (String × β)) (k : String) :
    dlookup k (l.foldl (fun acc c => if p c then dinsert (key c) (val c) acc else acc) m)
      = optOr (((l.filter (fun c => p c && (key c == k))).getLast?).map val)
          (dlookup k m) := by
  induction l generalizing m with
  | nil => simp [optOr]
  | cons c l ih =>
    rw [List.foldl_cons, List.filter_cons, ih]
    by_cases hp : p c
    · by_cases hk : key c = k
      · rw [if_pos hp, if_pos (show (p c && (key c == k)) = true by simp [hp, hk])]
        rw [getLast?_cons_opt, optOr_map, optOr_assoc, hk, dlookup_dinsert_self]
        rfl
      · rw [if_pos hp, if_neg (show ¬(p c && (key c == k)) = true by simp [hp, hk])]
        rw [dlookup_dinsert_ne hk]
    · rw [if_neg hp, if_neg (show ¬(p c && (key c == k)) = true by simp [hp])]

theorem dlookup_foldl_dinsert {α β : Type} (key : α → String) (val : α → β)
    (l : List α) (m : List (String × β)) (k : String) :
    dlookup k (l.foldl (fun acc c => dinsert (key c) (val c) acc) m)
      = optOr (((l.filter (fun c => key c == k)).getLast?).map val) (dlookup k m) := by
  induction l generalizing m with
  | nil => simp [optOr]
  | cons c l ih =>
    rw [List.foldl_cons, List.filter_cons, ih]
    by_cases hk : key c = k
    · rw [if_pos (show (key c == k) = true by simp [hk])]
      rw [getLast?_cons_opt, optOr_map, optOr_assoc, hk, dlookup_dinsert_self]
      rfl
    · rw [if_neg (show ¬(key c == k) = true by simp [hk]), dlookup_dinsert_ne hk]

theorem classifyStep_header (s : Sections) (e : RawEntity) :
    (classifyStep s e).header
      = if headerRouted e then dinsert e.type_ (entity_details e) s.header
        else s.header := by
  unfold classifyStep headerRouted
  by_cases h1 : e.type_ ∈ header_fields <;>
    by_cases h2 : e.type_ = "line_item" <;>
      by_cases h3 : e.type_ ∈ footer_fields <;>
        simp [h1, h2, h3, (by decide : ("line_item" : String) ∉ header_fields),
          (by decide : ("line_item" : String) ∉ footer_fields)]

theorem classifyStep_line_items (s : Sections) (e : RawEntity) :
    (classifyStep s e).line_items
      = if lineItemRouted e then s.line_items ++ [entity_details e]
        else s.line_items := by
  unfold classifyStep lineItemRouted
  by_cases h1 : e.type_ ∈ header_fields <;>
    by_cases h2 : e.type_ = "line_item" <;>
      by_cases h3 : e.type_ ∈ footer_fields <;>
        simp [h1, h2, h3, (by decide : ("line_item" : String) ∉ header_fields),
          (by decide : ("line_item" : String) ∉ footer_fields)]

theorem classifyStep_footer (s : Sections) (e : RawEntity) :
    (classifyStep s e).footer
      = if footerRouted e then dinsert e.type_ (entity_details e) s.footer
        else s.footer := by
  unfold classifyStep footerRouted
  by_cases h1 : e.type_ ∈ header_fields <;>
    by_cases h2 : e.type_ = "line_item" <;>
      by_cases h3 : e.type_ ∈ footer_fields <;>
        simp [h1, h2, h3, (by decide : ("line_item" : String) ∉ header_fields),
          (by decide : ("line_item" : String) ∉ footer_fields)]

theorem foldl_classify_header (es : List RawEntity) (s : Sections) :
    (es.foldl classifyStep s).header
      = es.foldl
          (fun h e => if headerRouted e then dinsert e.type_ (entity_details e) h else h)
          s.header := by
  induction es generalizing s with
  | nil => rfl
  | cons e es ih =>
    rw [List.foldl_cons, List.foldl_cons, ih, classifyStep_header]

theorem foldl_classify_footer (es : List RawEntity) (s : Sections) :
    (es.foldl classifyStep s).footer
      = es.foldl
          (fun h e => if footerRouted e then dinsert e.type_ (entity_details e) h else h)
          s.footer := by
  induction es generalizing s with
  | nil => rfl
  | cons e es ih =>
    rw [List.foldl_cons, List.foldl_cons, ih, classifyStep_footer]

theorem foldl_classify_line_items (es : List RawEntity) (s : Sections) :
    (es.foldl classifyStep s).line_items
      = s.line_items ++ (es.filter lineItemRouted).map entity_details := by
  induction es generalizing s with
  | nil => simp
  | cons e es ih =>
    rw [List.foldl_cons, ih, classifyStep_line_items, List.filter_cons]
    by_cases h : lineItemRouted e <;> simp [h]

theorem afterLastSep_no_sep {sep : Char} {cs : List Char} (h : sep ∉ cs) :
    afterLastSep sep cs = cs := by
  cases cs with
  | nil => rfl
  | cons c rest =>
    have h1 : sep ∉ rest := fun hm => h (List.mem_cons_of_mem c hm)
    have h2 : c ≠ sep := fun hc => h (hc ▸ List.mem_cons_self c rest)
    have hcont : rest.contains sep = false := by
      simp [List.contains]
      intro hm
      exact absurd hm h1
    rw [afterLastSep, hcont]
    simp [h2]

theorem afterLastSep_append {sep : Char} (xs : List Char) {ys : List Char}
    (h : sep ∉ ys) : afterLastSep sep (xs ++ sep :: ys) = ys := by
  induction xs with
  | nil =>
    have hcont : ys.contains sep = false := by
      simp [List.contains]
      intro hm
      exact absurd hm h
    rw [List.nil_append, afterLastSep, hcont]
    simp
  | cons x xs ih =>
    have hcont : (xs ++ sep :: ys).contains sep = true := by
      simp [List.contains]
    rw [List.cons_append, afterLastSep, hcont]
    simpa using ih

theorem rfindChar_no {ch : Char} {cs : List Char} (h : ch ∉ cs) :
    rfindChar ch cs = none := by
  induction cs with
  | nil => rfl
  | cons c rest ih =>
    have h1 : ch ∉ rest := fun hm => h (List.mem_cons_of_mem c hm)
    have h2 : c ≠ ch := fun hc => h (hc ▸ List.mem_cons_self c rest)
    rw [rfindChar, ih h1]
    simp [h2]

theorem rfindChar_append {ch : Char} (xs : List Char) {ys : List Char}
    (h : ch ∉ ys) : rfindChar ch (xs ++ ch :: ys) = some xs.length := by
  induction xs with
  | nil =>
    rw [List.nil_append, rfindChar, rfindChar_no h]
    simp
  | cons x xs ih =>
    rw [List.cons_append, rfindChar, ih]
    simp

theorem toNat_charOfNat_valid {n : Nat} (h : n.isValidChar) :
    (Char.ofNat n).toNat = n := by
  rw [Char.ofNat, dif_pos h]
  rfl

theorem toLower_eq_dot {c : Char} (h : Char.toLower c = '.') : c = '.' := by
  by_cases hc : c.toNat ≥ 65 ∧ c.toNat ≤ 90
  · exfalso
    have hval : (c.toNat + 32).isValidChar := Or.inl (by omega)
    have h2 : Char.toLower c = Char.ofNat (c.toNat + 32) := by
      unfold Char.toLower
      rw [if_pos hc]
    have h3 := congrArg Char.toNat (h2.symm.trans h)
    rw [toNat_charOfNat_valid hval] at h3
    have h4 : Char.toNat '.' = 46 := by decide
    omega
  · have h2 : Char.toLower c = c := by
      unfold Char.toLower
      rw [if_neg hc]
    exact h2.symm.trans h

theorem toLower_notMem_dot {cs : List Char} (h : '.' ∉ cs) :
    '.' ∉ cs.map Char.toLower := by
  intro hm
  obtain ⟨c, hc, he⟩ := List.mem_map.1 hm
  exact h ((toLower_eq_dot he) ▸ hc)

theorem append_dot_data (s ext : String) :
    (s ++ "." ++ ext).data = s.data ++ '.' :: ext.data := by
  rw [String.data_append, String.data_append, List.append_assoc]
  rfl

theorem dropWhile_dot_of_not_mem {cs : List Char} (h : '.' ∉ cs) :
    cs.dropWhile (· == '.') = cs := by
  cases cs with
  | nil => rfl
  | cons c rest =>
    have hc : (c == '.') = false := by
      simp only [beq_eq_false_iff_ne, ne_eq]
      intro he
      exact h (he ▸ List.mem_cons_self c rest)
    rw [List.dropWhile_cons, hc]
    simp

theorem rawcod_ext_split (s ext : String) (h : '.' ∉ ext.data) :
    Rawcod.get_mime_type (s ++ "." ++ ext)
      = dlookupD (lowerStr ext) Rawcod.mime_types "application/octet-stream" := by
  have hmap : '.' ∉ ext.data.map Char.toLower := toLower_notMem_dot h
  have hdata : (lowerStr (s ++ "." ++ ext)).data
      = s.data.map Char.toLower ++ '.' :: ext.data.map Char.toLower := by
    show ((s ++ "." ++ ext).data).map Char.toLower = _
    rw [append_dot_data, List.map_append, List.map_cons]
    rfl
  have hkey : String.mk (afterLastSep '.' (lowerStr (s ++ "." ++ ext)).data)
      = lowerStr ext := by
    rw [hdata, afterLastSep_append _ hmap]
    rfl
  unfold Rawcod.get_mime_type
  rw [hkey]

theorem rawcod_no_dot (name : String) (h : '.' ∉ name.data) :
    Rawcod.get_mime_type name
      = dlookupD (lowerStr name) Rawcod.mime_types "application/octet-stream" := by
  have hd : (lowerStr name).data = name.data.map Char.toLower := rfl
  unfold Rawcod.get_mime_type
  rw [hd, afterLastSep_no_sep (toLower_notMem_dot h)]
  rfl

theorem ps_ext_split (s ext : String) (hs : s ≠ "") (he : ext ≠ "")
    (h : '.' ∉ ext.data) :
    ProcessService.get_mime_type (s ++ "." ++ ext)
      = dlookupD (lowerStr ext) ProcessService.mime_map "application/octet-stream" := by
  have hmap : '.' ∉ ext.data.map Char.toLower := toLower_notMem_dot h
  have hsd : s.data ≠ [] := fun hh => hs (String.ext hh)
  have hed : ext.data ≠ [] := fun hh => he (String.ext hh)
  have hfind : rfindChar '.' (s ++ "." ++ ext).data = some s.data.length := by
    rw [append_dot_data]
    exact rfindChar_append _ h
  have hcond : 0 < s.data.length ∧ s.data.length + 1 < (s ++ "." ++ ext).data.length := by
    constructor
    · exact List.length_pos.2 hsd
    · rw [append_dot_data, List.length_append, List.length_cons]
      have := List.length_pos.2 hed
      omega
  have hsuffix : pySuffix (s ++ "." ++ ext) = String.mk ('.' :: ext.data) := by
    unfold pySuffix
    simp only [hfind]
    rw [if_pos hcond, append_dot_data, List.drop_left]
  have hkey : String.mk ((lowerStr (pySuffix (s ++ "." ++ ext))).data.dropWhile (· == '.'))
      = lowerStr ext := by
    rw [hsuffix]
    show String.mk ((('.' :: ext.data).map Char.toLower).dropWhile (· == '.')) = _
    rw [List.map_cons]
    have hdot : (Char.toLower '.' == '.') = true := by decide
    rw [List.dropWhile_cons, hdot]
    simp only [if_true]
    rw [dropWhile_dot_of_not_mem hmap]
    rfl
  unfold ProcessService.get_mime_type
  rw [hkey]

theorem ps_no_dot (name : String) (h : '.' ∉ name.data) :
    ProcessService.get_mime_type name = "application/octet-stream" := by
  unfold ProcessService.get_mime_type pySuffix
  rw [rfindChar_no h]
  exact (by decide :
    dlookupD (String.mk ((lowerStr "").data.dropWhile (· == '.'))) ProcessService.mime_map
        "application/octet-stream"
      = "application/octet-stream")

theorem mime_tables_agree (k : String) :
    dlookup k Rawcod.mime_types = dlookup k ProcessService.mime_map := by
  by_cases h1 : k = "jpg"
  · subst h1
    decide
  by_cases h2 : k = "jpeg"
  · subst h2
    decide
  by_cases h3 : k = "png"
  · subst h3
    decide
  by_cases h4 : k = "bmp"
  · subst h4
    decide
  by_cases h5 : k = "gif"
  · subst h5
    decide
  by_cases h6 : k = "tiff"
  · subst h6
    decide
  by_cases h7 : k = "tif"
  · subst h7
    decide
  by_cases h8 : k = "webp"
  · subst h8
    decide
  by_cases h9 : k = "pdf"
  · subst h9
    decide
  simp [Rawcod.mime_types, ProcessService.mime_map, dlookup,
    Ne.symm h1, Ne.symm h2, Ne.symm h3, Ne.symm h4, Ne.symm h5,
    Ne.symm h6, Ne.symm h7, Ne.symm h8, Ne.symm h9]

theorem dlookupD_tables_agree (k d : String) :
    dlookupD k Rawcod.mime_types d = dlookupD k ProcessService.mime_map d := by
  unfold dlookupD
  rw [mime_tables_agree]

theorem dlookupD_default_or_mem {α : Type} (k : String) (m : List (String × α)) (d : α) :
    dlookupD k m d = d ∨ dlookupD k m d ∈ m.map Prod.snd := by
  induction m with
  | nil => left; rfl
  | cons p rest ih =>
    obtain ⟨k', v⟩ := p
    by_cases h : k' = k
    · right
      simp [dlookupD, dlookup, h]
    · rcases ih with h2 | h2
      · left
        simpa [dlookupD, dlookup, h] using h2
      · right
        rw [List.map_cons]
        exact List.mem_cons_of_mem _ (by simpa [dlookupD, dlookup, h] using h2)

theorem header_lookup (es : List RawEntity) (tid : String) (k : String) :
    dlookup k (build_structured_invoice es tid).header
      = ((es.filter (fun e => headerRouted e && (e.type_ == k))).getLast?).map
          entity_details := by
  show dlookup k (List.foldl classifyStep ⟨[], [], []⟩ es).header = _
  rw [foldl_classify_header, dlookup_foldl_cond headerRouted RawEntity.type_ entity_details]
  rw [show dlookup k ((⟨[], [], []⟩ : Sections)).header = none from rfl, optOr_none_right]

theorem footer_lookup (es : List RawEntity) (tid : String) (k : String) :
    dlookup k (build_structured_invoice es tid).footer
      = ((es.filter (fun e => footerRouted e && (e.type_ == k))).getLast?).map
          entity_details := by
  show dlookup k (List.foldl classifyStep ⟨[], [], []⟩ es).footer = _
  rw [foldl_classify_footer, dlookup_foldl_cond footerRouted RawEntity.type_ entity_details]
  rw [show dlookup k ((⟨[], [], []⟩ : Sections)).footer = none from rfl, optOr_none_right]

theorem lineItemRouted_eq (e : RawEntity) :
    lineItemRouted e = (e.type_ == "line_item") := by
  by_cases h : e.type_ = "line_item"
  · have hc : ("line_item" : String) ∉ header_fields := by decide
    simp [lineItemRouted, h, hc]
  · simp [lineItemRouted, h]

theorem line_items_eq (es : List RawEntity) (tid : String) :
    (build_structured_invoice es tid).line_items
      = (es.filter (fun e => e.type_ == "line_item")).map entity_details := by
  show (List.foldl classifyStep ⟨[], [], []⟩ es).line_items = _
  rw [foldl_classify_line_items, List.filter_congr (fun e _ => lineItemRouted_eq e)]
  rfl

theorem filter_beq_of_nodup_map {α β : Type} [DecidableEq β] {l : List α} {f : α → β}
    (hnd : (l.map f).Nodup) {e : α} (he : e ∈ l) :
    l.filter (fun x => f x == f e) = [e] := by
  induction l with
  | nil => cases he
  | cons a l ih =>
    rw [List.map_cons, List.nodup_cons] at hnd
    rw [List.filter_cons]
    rcases List.mem_cons.1 he with rfl | hmem
    · rw [if_pos (by simp)]
      have hnil : l.filter (fun x => f x == f e) = [] := by
        rw [List.filter_eq_nil_iff]
        intro x hx
        simp only [beq_iff_eq]
        intro hfx
        exact hnd.1 (by rw [← hfx]; exact List.mem_map_of_mem f hx)
      rw [hnil]
    · have hne : ¬(f a == f e) = true := by
        simp only [beq_iff_eq]
        intro hfa
        exact hnd.1 (by rw [hfa]; exact List.mem_map_of_mem f hmem)
      rw [if_neg hne, ih hnd.2 hmem]

theorem getLast?_filter_isSome {α : Type} {l : List α} {p : α → Bool} {e : α}
    (he : e ∈ l) (hp : p e = true) : ((l.filter p).getLast?).isSome = true := by
  have hmem : e ∈ l.filter p := List.mem_filter.2 ⟨he, hp⟩
  rw [List.getLast?_isSome]
  exact List.ne_nil_of_mem hmem

theorem isSome_map_of_isSome {α β : Type} {o : Option α} (f : α → β)
    (h : o.isSome = true) : (o.map f).isSome = true := by
  cases o with
  | none => cases h
  | some v => rfl

theorem line_item_notMem_header : ("line_item" : String) ∉ header_fields := by decide

theorem line_item_notMem_footer : ("line_item" : String) ∉ footer_fields := by decide

theorem footer_fields_props : ∀ t ∈ footer_fields, t ∉ header_fields ∧ t ≠ "line_item" := by
  decide

theorem routed_exactly_one (e : RawEntity) :
    (headerRouted e).toNat + (lineItemRouted e).toNat + (footerRouted e).toNat = 1 := by
  by_cases h1 : e.type_ ∈ header_fields <;>
    by_cases h2 : e.type_ = "line_item" <;>
      by_cases h3 : e.type_ ∈ footer_fields <;>
        simp [headerRouted, lineItemRouted, footerRouted, h1, h2, h3,
          line_item_notMem_header, line_item_notMem_footer]

/-- Claim C1: in the Response Normalizer, every entity whose type is in the
header-field list lands in the header map under its type; every entity of
type "line_item" is appended to line_items in input order and never appears
as a header or footer key; every entity whose type is in the footer-field
list lands in the footer map under its type; every other entity lands in the
header map under its type. -/
theorem C1_normalizer_routing (es : List RawEntity) (tid : String) :
    (build_structured_invoice es tid).line_items
      = (es.filter (fun e => e.type_ == "line_item")).map entity_details
    ∧ dlookup "line_item" (build_structured_invoice es tid).header = none
    ∧ dlookup "line_item" (build_structured_invoice es tid).footer = none
    ∧ ∀ e ∈ es,
        (e.type_ ∈ header_fields →
          (dlookup e.type_ (build_structured_invoice es tid).header).isSome = true)
        ∧ (e.type_ ∈ footer_fields →
          (dlookup e.type_ (build_structured_invoice es tid).footer).isSome = true)
        ∧ (e.type_ ∉ header_fields → e.type_ ≠ "line_item" → e.type_ ∉ footer_fields →
          (dlookup e.type_ (build_structured_invoice es tid).header).isSome = true) := by
  refine ⟨line_items_eq es tid, ?_, ?_, ?_⟩
  · rw [header_lookup]
    have hnil : es.filter (fun e => headerRouted e && (e.type_ == "line_item")) = [] := by
      rw [List.filter_eq_nil_iff]
      intro x hx
      by_cases h : x.type_ = "line_item"
      · simp [headerRouted, h, line_item_notMem_header, line_item_notMem_footer]
      · simp [h]
    rw [hnil]
    rfl
  · rw [footer_lookup]
    have hnil : es.filter (fun e => footerRouted e && (e.type_ == "line_item")) = [] := by
      rw [List.filter_eq_nil_iff]
      intro x hx
      by_cases h : x.type_ = "line_item"
      · simp [footerRouted, h]
      · simp [h]
    rw [hnil]
    rfl
  · intro e he
    refine ⟨fun h1 => ?_, fun h2 => ?_, fun h1 h2 h3 => ?_⟩
    · rw [header_lookup]
      exact isSome_map_of_isSome _
        (getLast?_filter_isSome he (by simp [headerRouted, h1]))
    · rw [footer_lookup]
      obtain ⟨hnh, hnl⟩ := footer_fields_props e.type_ h2
      exact isSome_map_of_isSome _
        (getLast?_filter_isSome he (by simp [footerRouted, hnh, hnl, h2]))
    · rw [header_lookup]
      exact isSome_map_of_isSome _
        (getLast?_filter_isSome he (by simp [headerRouted, h1, h2, h3]))

/-- Claim C1 witness: the routing placements evaluated on a concrete entity
list with one entity of each kind. -/
theorem C1_normalizer_routing_witness :
    (RawEntity.mk "invoice_id" "INV-1" []
        ∈ [RawEntity.mk "invoice_id" "INV-1" [],
           RawEntity.mk "line_item" "Widget" [RawEntity.mk "line_item/qty" "3" []],
           RawEntity.mk "total_amount" "42.00" [],
           RawEntity.mk "mystery" "x" []])
    ∧ (dlookup "invoice_id"
        (build_structured_invoice
          [RawEntity.mk "invoice_id" "INV-1" [],
           RawEntity.mk "line_item" "Widget" [RawEntity.mk "line_item/qty" "3" []],
           RawEntity.mk "total_amount" "42.00" [],
           RawEntity.mk "mystery" "x" []] "t").header).isSome = true := by
  constructor
  · exact List.mem_cons_self _ _
  · exact ((C1_normalizer_routing
      [RawEntity.mk "invoice_id" "INV-1" [],
       RawEntity.mk "line_item" "Widget" [RawEntity.mk "line_item/qty" "3" []],
       RawEntity.mk "total_amount" "42.00" [],
       RawEntity.mk "mystery" "x" []] "t").2.2.2
      (RawEntity.mk "invoice_id" "INV-1" []) (List.mem_cons_self _ _)).1 (by decide)

/-- Claim C5: in the Response Normalizer's result, a header (or footer) map
key holds the details of the last entity of the input routed to that section
with that type: an earlier entity sharing the key is overwritten, not
merged. -/
theorem C5_last_write_wins (es : List RawEntity) (tid k : String) :
    dlookup k (build_structured_invoice es tid).header
      = ((es.filter (fun e => headerRouted e && (e.type_ == k))).getLast?).map
          entity_details
    ∧ dlookup k (build_structured_invoice es tid).footer
      = ((es.filter (fun e => footerRouted e && (e.type_ == k))).getLast?).map
          entity_details :=
  ⟨header_lookup es tid k, footer_lookup es tid k⟩

/-- Claim C6: entity details are flattened exactly one level: the value is
the entity's own text; a properties key holds the text of the last direct
child whose type's trailing segment after the last '/' equals that key; and
the result is unchanged when every grandchild is removed, so grandchildren
are never consumed. -/
theorem C6_flatten_one_level (t mt : String) (children : List RawEntity) :
    (entity_details (RawEntity.mk t mt children)).value = mt
    ∧ (∀ k : String,
        dlookup k (entity_details (RawEntity.mk t mt children)).properties
          = ((children.filter
                (fun c => String.mk (afterLastSep '/' c.type_.data) == k)).getLast?).map
              RawEntity.mention_text)
    ∧ entity_details
        (RawEntity.mk t mt
          (children.map (fun c => RawEntity.mk c.type_ c.mention_text [])))
      = entity_details (RawEntity.mk t mt children) := by
  refine ⟨rfl, fun k => ?_, ?_⟩
  · exact (dlookup_foldl_dinsert
      (fun c : RawEntity => String.mk (afterLastSep '/' c.type_.data))
      RawEntity.mention_text children [] k).trans (optOr_none_right _)
  · show entity_details _ = entity_details _
    unfold entity_details
    simp only [RawEntity.mention_text, RawEntity.properties, RawEntity.type_, List.foldl_map]

/-- Claim C7: the classification sections of the Response Normalizer depend
only on the entity list, and the transaction identifier only on the freshly
generated identifier: two runs on the same entities with distinct identifiers
agree on header, line_items and footer and differ in transaction_id, and the
identifier is unchanged across different documents. -/
theorem C7_transaction_id_independent (es es2 : List RawEntity) (t1 t2 : String)
    (h : t1 ≠ t2) :
    (build_structured_invoice es t1).header = (build_structured_invoice es t2).header
    ∧ (build_structured_invoice es t1).line_items
        = (build_structured_invoice es t2).line_items
    ∧ (build_structured_invoice es t1).footer = (build_structured_invoice es t2).footer
    ∧ (build_structured_invoice es t1).transaction_id
        ≠ (build_structured_invoice es t2).transaction_id
    ∧ (build_structured_invoice es t1).transaction_id
        = (build_structured_invoice es2 t1).transaction_id :=
  ⟨rfl, rfl, rfl, h, rfl⟩

/-- Claim C7 witness: two invocations on the same empty document with
distinct fresh identifiers produce distinct transaction identifiers. -/
theorem C7_transaction_id_independent_witness :
    (build_structured_invoice [] "a").transaction_id
      ≠ (build_structured_invoice [] "b").transaction_id :=
  (C7_transaction_id_independent [] [] "a" "b" (by decide)).2.2.2.1

/-- Claim C10 counterexample: with two entities of the same header type, the
earlier entity is dropped: its details appear in none of the three sections
of the result, refuting that every input entity is placed in a section. -/
theorem C10_counterexample :
    (RawEntity.mk "invoice_id" "A" [])
      ∈ [RawEntity.mk "invoice_id" "A" [], RawEntity.mk "invoice_id" "B" []]
    ∧ entity_details (RawEntity.mk "invoice_id" "A" [])
        ∉ ((build_structured_invoice
            [RawEntity.mk "invoice_id" "A" [],
             RawEntity.mk "invoice_id" "B" []] "t").header).map Prod.snd
    ∧ entity_details (RawEntity.mk "invoice_id" "A" [])
        ∉ (build_structured_invoice
            [RawEntity.mk "invoice_id" "A" [],
             RawEntity.mk "invoice_id" "B" []] "t").line_items
    ∧ entity_details (RawEntity.mk "invoice_id" "A" [])
        ∉ ((build_structured_invoice
            [RawEntity.mk "invoice_id" "A" [],
             RawEntity.mk "invoice_id" "B" []] "t").footer).map Prod.snd := by
  refine ⟨List.mem_cons_self _ _, ?_, ?_, ?_⟩ <;> decide

/-- Claim C10 (amended): every entity is routed to exactly one of the three
sections; the serialized result holds exactly the four fields header,
line_items, footer and transaction_id; and when the header-routed entities
have pairwise distinct types and likewise the footer-routed ones, no entity
is dropped: each one's details appear in its section. -/
theorem C10_sections_amended (es : List RawEntity) (tid : String) :
    (∀ e : RawEntity,
      (headerRouted e).toNat + (lineItemRouted e).toNat + (footerRouted e).toNat = 1)
    ∧ (toPairs (build_structured_invoice es tid)).map Prod.fst
        = ["header", "line_items", "footer", "transaction_id"]
    ∧ (((es.filter headerRouted).map RawEntity.type_).Nodup →
       ((es.filter footerRouted).map RawEntity.type_).Nodup →
       ∀ e ∈ es,
         (headerRouted e = true →
           dlookup e.type_ (build_structured_invoice es tid).header
             = some (entity_details e))
         ∧ (lineItemRouted e = true →
           entity_details e ∈ (build_structured_invoice es tid).line_items)
         ∧ (footerRouted e = true →
           dlookup e.type_ (build_structured_invoice es tid).footer
             = some (entity_details e))) := by
  refine ⟨routed_exactly_one, rfl, ?_⟩
  intro hndh hndf e he
  refine ⟨fun hh => ?_, fun hl => ?_, fun hf => ?_⟩
  · rw [header_lookup]
    have h1 : es.filter (fun x => headerRouted x && (x.type_ == e.type_))
        = (es.filter headerRouted).filter (fun x => x.type_ == e.type_) := by
      rw [List.filter_filter]
      exact List.filter_congr (fun x _ => by rw [Bool.and_comm])
    rw [h1, filter_beq_of_nodup_map hndh (List.mem_filter.2 ⟨he, hh⟩)]
    rfl
  · rw [lineItemRouted_eq] at hl
    rw [line_items_eq]
    exact List.mem_map_of_mem entity_details (List.mem_filter.2 ⟨he, hl⟩)
  · rw [footer_lookup]
    have h1 : es.filter (fun x => footerRouted x && (x.type_ == e.type_))
        = (es.filter footerRouted).filter (fun x => x.type_ == e.type_) := by
      rw [List.filter_filter]
      exact List.filter_congr (fun x _ => by rw [Bool.and_comm])
    rw [h1, filter_beq_of_nodup_map hndf (List.mem_filter.2 ⟨he, hf⟩)]
    rfl

/-- Claim C10 witness: on a one-entity document the distinct-type hypotheses
hold and the entity's details are found in the header. -/
theorem C10_sections_amended_witness :
    dlookup "invoice_id"
      (build_structured_invoice [RawEntity.mk "invoice_id" "INV-1" []] "t").header
      = some (entity_details (RawEntity.mk "invoice_id" "INV-1" [])) :=
  ((C10_sections_amended [RawEntity.mk "invoice_id" "INV-1" []] "t").2.2
    (by decide) (by decide)
    (RawEntity.mk "invoice_id" "INV-1" []) (List.mem_cons_self _ _)).1 (by decide)

/-- Claim C8: the batch loop is fail-fast: when every file before some file
succeeds and that file fails, the run submits exactly the files up to and
including the failing one, no later file of the enumeration, and exits with
code 1. -/
theorem C8_batch_fail_fast {φ ε β : Type} (outcome : φ → Except ε β)
    (pre : List φ) (f : φ) (post : List φ)
    (hpre : ∀ g ∈ pre, (outcome g).isOk = true)
    (hf : (outcome f).isOk = false) :
    batch_loop outcome (pre ++ f :: post) = (pre ++ [f], 1) := by
  induction pre with
  | nil =>
    rw [List.nil_append, batch_loop]
    cases hof : outcome f with
    | ok v => rw [hof] at hf; cases hf
    | error err => simp
  | cons g pre ih =>
    have hg : (outcome g).isOk = true := hpre g (List.mem_cons_self g pre)
    rw [List.cons_append, batch_loop]
    cases hog : outcome g with
    | ok v =>
      rw [ih (fun x hx => hpre x (List.mem_cons_of_mem g hx))]
      simp
    | error err => rw [hog] at hg; cases hg

/-- Claim C8 witness: a concrete four-file batch whose second file fails
submits only the first two files and exits 1. -/
theorem C8_batch_fail_fast_witness :
    batch_loop
      (fun n : Nat => if n = 1 then (Except.error () : Except Unit Unit) else Except.ok ())
      [0, 1, 2, 3] = ([0, 1], 1) :=
  C8_batch_fail_fast
    (fun n : Nat => if n = 1 then (Except.error () : Except Unit Unit) else Except.ok ())
    [0] 1 [2, 3] (by decide) (by decide)

/-- Claim C3: a credential file that parses but lacks a project_id field makes
`load_project_id` raise a plain ValueError, which the `except RuntimeError`
clause of `main` does not catch: the error propagates out of `main` uncaught
rather than being logged and converted to a return code. -/
theorem C3_missing_project_id_uncaught :
    mainConfigStep (some "/creds.json") true (CredsParse.parsed none) (some "proc")
        none none
      = Except.error (Outcome.uncaughtExc
          (PyExc.valueError "project_id not found in credentials file"))
    ∧ Outcome.uncaughtExc (PyExc.valueError "project_id not found in credentials file")
        ≠ Outcome.exited 1 := by
  exact ⟨rfl, by decide⟩

/-- Claim C4 counterexample: with the processor-id environment variable set
to a value with surrounding whitespace, `load_processor_id` returns the
stripped value, not the environment variable's value. -/
theorem C4_counterexample :
    load_processor_id (some " x ") none = Except.ok "x"
    ∧ load_processor_id (some " x ") none ≠ Except.ok " x " := by
  exact ⟨by decide, by decide⟩

/-- Claim C4 (amended): `load_processor_id` returns the stripped environment
value when the environment variable is set to a non-empty string; otherwise
the stripped fallback-file content when that is non-empty; and it fails with
the missing-processor-id error exactly when the environment variable is unset
or empty and the file is absent or strips to empty. -/
theorem C4_load_processor_id_amended (envId fileContent : Option String) :
    (∀ e : String, envId = some e → e ≠ "" →
      load_processor_id envId fileContent = Except.ok (pyStrip e))
    ∧ ((envId = none ∨ envId = some "") → ∀ c : String, fileContent = some c →
      pyStrip c ≠ "" → load_processor_id envId fileContent = Except.ok (pyStrip c))
    ∧ (load_processor_id envId fileContent
        = Except.error (PyExc.runtimeError "Processor ID not found.")
      ↔ (envId = none ∨ envId = some "")
        ∧ (fileContent = none ∨ ∃ c, fileContent = some c ∧ pyStrip c = "")) := by
  refine ⟨?_, ?_, ?_⟩
  · intro e he hne
    subst he
    simp [load_processor_id, hne]
  · rintro (rfl | rfl) c rfl hc <;> simp [load_processor_id, hc]
  · cases envId with
    | none =>
      cases fileContent with
      | none => simp [load_processor_id]
      | some c =>
        by_cases hc : pyStrip c = "" <;> simp [load_processor_id, hc]
    | some e =>
      by_cases he : e = ""
      · subst he
        cases fileContent with
        | none => simp [load_processor_id]
        | some c =>
          by_cases hc : pyStrip c = "" <;> simp [load_processor_id, hc]
      · simp [load_processor_id, he]

/-- Claim C4 witness: with the environment variable set but empty and a
padded file content, resolution returns the stripped file content. -/
theorem C4_load_processor_id_amended_witness :
    load_processor_id (some "") (some " pid ") = Except.ok "pid" := by
  rw [(C4_load_processor_id_amended (some "") (some " pid ")).2.1
    (Or.inr rfl) " pid " rfl (by decide)]
  decide

/-- Claim C2 counterexample: the filename "pdf" has no extension, yet the
single-file script's classifier returns "application/pdf" instead of the
sentinel, because it takes the last '.'-separated segment of the whole
lowercased path, which is the entire name when no dot is present. -/
theorem C2_counterexample :
    Rawcod.get_mime_type "pdf" = "application/pdf"
    ∧ Rawcod.get_mime_type "pdf" ≠ "application/octet-stream" :=
  ⟨by decide, by decide⟩

/-- Claim C2 (amended): both classifiers are total, always returning either
the sentinel or one of the documented MIME strings. For a filename of shape
name.ext with a dot-free ext, both return the documented MIME string when the
lowercased ext is in the table (for the batch script, provided name and ext
are non-empty, matching pathlib's suffix rule) and the sentinel otherwise.
For a dotless filename the batch script returns the sentinel, but the
single-file script looks up the entire lowercased filename in the table. -/
theorem C2_mime_classifier_amended (name ext m : String) :
    (Rawcod.get_mime_type name = "application/octet-stream"
      ∨ Rawcod.get_mime_type name ∈ Rawcod.mime_types.map Prod.snd)
    ∧ (ProcessService.get_mime_type name = "application/octet-stream"
      ∨ ProcessService.get_mime_type name ∈ ProcessService.mime_map.map Prod.snd)
    ∧ ('.' ∉ ext.data → dlookup (lowerStr ext) Rawcod.mime_types = some m →
        Rawcod.get_mime_type (name ++ "." ++ ext) = m)
    ∧ (name ≠ "" → ext ≠ "" → '.' ∉ ext.data →
        dlookup (lowerStr ext) Rawcod.mime_types = some m →
        ProcessService.get_mime_type (name ++ "." ++ ext) = m)
    ∧ ('.' ∉ ext.data → dlookup (lowerStr ext) Rawcod.mime_types = none →
        Rawcod.get_mime_type (name ++ "." ++ ext) = "application/octet-stream")
    ∧ (name ≠ "" → ext ≠ "" → '.' ∉ ext.data →
        dlookup (lowerStr ext) Rawcod.mime_types = none →
        ProcessService.get_mime_type (name ++ "." ++ ext) = "application/octet-stream")
    ∧ ('.' ∉ name.data → ProcessService.get_mime_type name = "application/octet-stream")
    ∧ ('.' ∉ name.data →
        Rawcod.get_mime_type name
          = dlookupD (lowerStr name) Rawcod.mime_types "application/octet-stream") := by
  refine ⟨?_, ?_, ?_, ?_, ?_, ?_, ?_, ?_⟩
  · exact dlookupD_default_or_mem _ _ _
  · exact dlookupD_default_or_mem _ _ _
  · intro hd hm
    rw [rawcod_ext_split name ext hd]
    unfold dlookupD
    rw [hm]
    rfl
  · intro hn he hd hm
    rw [ps_ext_split name ext hn he hd]
    unfold dlookupD
    rw [← mime_tables_agree, hm]
    rfl
  · intro hd hm
    rw [rawcod_ext_split name ext hd]
    unfold dlookupD
    rw [hm]
    rfl
  · intro hn he hd hm
    rw [ps_ext_split name ext hn he hd]
    unfold dlookupD
    rw [← mime_tables_agree, hm]
    rfl
  · exact ps_no_dot name
  · exact rawcod_no_dot name

/-- Claim C2 witness: the supported extension PDF in upper case is classified
as application/pdf by both scripts at a concrete filename. -/
theorem C2_mime_classifier_amended_witness :
    Rawcod.get_mime_type ("scan" ++ "." ++ "PDF") = "application/pdf"
    ∧ ProcessService.get_mime_type ("scan" ++ "." ++ "PDF") = "application/pdf" :=
  ⟨(C2_mime_classifier_amended "scan" "PDF" "application/pdf").2.2.1
      (by decide) (by decide),
    (C2_mime_classifier_amended "scan" "PDF" "application/pdf").2.2.2.1
      (by decide) (by decide) (by decide) (by decide)⟩

/-- Claim C9 counterexample: the two classifiers disagree on the filename
"pdf": the single-file script maps it to application/pdf while the batch
script returns the sentinel. -/
theorem C9_counterexample :
    Rawcod.get_mime_type "pdf" ≠ ProcessService.get_mime_type "pdf" := by decide

/-- Claim C9 (amended): the two classifiers agree on every filename of shape
stem.ext whose stem and ext are non-empty and whose ext contains no dot; they
can disagree on names without such an interior dot, such as "pdf". -/
theorem C9_mime_agreement_amended (stem ext : String) (hs : stem ≠ "")
    (he : ext ≠ "") (hd : '.' ∉ ext.data) :
    Rawcod.get_mime_type (stem ++ "." ++ ext)
      = ProcessService.get_mime_type (stem ++ "." ++ ext) := by
  rw [rawcod_ext_split stem ext hd, ps_ext_split stem ext hs he hd,
    dlookupD_tables_agree]

/-- Claim C9 witness: both classifiers agree on the concrete filename
a.JPG. -/
theorem C9_mime_agreement_amended_witness :
    Rawcod.get_mime_type ("a" ++ "." ++ "JPG")
      = ProcessService.get_mime_type ("a" ++ "." ++ "JPG") :=
  C9_mime_agreement_amended "a" "JPG" (by decide) (by decide) (by decide)
